import Mathlib

/-!
Verification of the AI-WAF decision pipeline (TypeScript sources under
`src/`): a shallow embedding of the core pipeline — threat-level banding,
the score combiner, the LLM-council reduction, the pipeline orchestrator
(`analyzeInput` / `analyzeOutputSafety`), the policy store and its HTTP
update boundary, and the bounded security log — together with theorems
settling the specification's claims about them.

Modelling conventions:
* JavaScript numbers are modelled as `ℚ` (exact arithmetic); `Math.round`
  is `jsRound` (round half toward positive infinity, which is JS
  semantics for all finite inputs).
* I/O-dependent fields (`requestId` from uuid, `timestamp`, wall-clock
  `latency`) are omitted: the claims never mention them and they have no
  influence on any decision field.
* The pattern (heuristic) detector, the output detector, the per-provider
  LLM calls, and the regex engine are external collaborators (spec §1);
  they enter the embedding as oracle functions in `DetectorEnv`.  The
  council *reduction* (`councilDecision`), which is pure code in the
  repository, is embedded directly.
-/

namespace AIWAF

/-- Severity banding (`types/index.ts`). -/
inductive ThreatLevel where
  | none | low | medium | high | critical
deriving DecidableEq, Repr, Inhabited

/-- Attack categories (`types/index.ts`). -/
inductive AttackType where
  | prompt_injection
  | jailbreak
  | data_exfiltration
  | privilege_escalation
  | encoding_attack
  | indirect_injection
  | delimiter_attack
  | social_engineering
  | output_manipulation
  | none
deriving DecidableEq, Repr, Inhabited

/-- The final verdict of a decision. -/
inductive WAFAction where
  | allow | flag | block
deriving DecidableEq, Repr, Inhabited

/-- Input scan versus output validation. -/
inductive ScanType where
  | input | output
deriving DecidableEq, Repr, Inhabited

/-- JavaScript `Math.round`: round half toward positive infinity
(computably, via `Rat.floor`). -/
def jsRound (q : ℚ) : ℤ := (q + 1/2).floor

/-- `jsRound` is the floor of `q + 1/2`. -/
theorem jsRound_eq_floor (q : ℚ) : jsRound q = ⌊q + 1/2⌋ := by
  rw [jsRound, Rat.floor_def']
  rw [Rat.floor_def]

/-- The fixed score-to-threat-level banding used by the engine
(`waf-engine.ts` lines 253-257 and 329-331, `llm-analyzer` lines
733-735). -/
def threatLevelOfScore (s : ℚ) : ThreatLevel :=
  if s ≥ 80 then ThreatLevel.critical
  else if s ≥ 60 then ThreatLevel.high
  else if s ≥ 40 then ThreatLevel.medium
  else if s ≥ 20 then ThreatLevel.low
  else ThreatLevel.none

/-- `Math.max(...scores)` over a non-empty list (the empty case is never
reached by the code; 0 is a junk value for it). -/
def listMax : List ℚ → ℚ
  | [] => 0
  | [x] => x
  | x :: y :: rest => max x (listMax (y :: rest))

/-- `Math.max(0, ...scores)` (`waf-engine.ts` line 191). -/
def listMax0 (l : List ℚ) : ℚ := l.foldr max 0

/-- The result of a single analyzer (`types/index.ts`).  `confidence`
models `metadata?.confidence`, the only metadata key the pipeline
consumes; `latency` is wall-clock I/O and is omitted. -/
structure AnalysisResult where
  analyzer : String
  score : ℚ
  explanation : String
  attackType : AttackType
  threatLevel : ThreatLevel
  confidence : Option ℚ := Option.none
deriving DecidableEq, Repr, Inhabited

/-- Analyzer-type base weights (`waf-engine.ts` lines 424-431); the
`weights[analysis.analyzer] || 0.5` lookup defaults unknown analyzers
to 0.5 (no table entry is falsy, so `||` only handles absence). -/
def weightFor (analyzer : String) : ℚ :=
  if analyzer = "heuristic" then 4/10
  else if analyzer = "llm_intent" then 6/10
  else if analyzer = "llm_council" then 6/10
  else if analyzer = "custom_patterns" then 5/10
  else if analyzer = "blocked_topics" then 7/10
  else if analyzer = "output_validator" then 5/10
  else 5/10

/-- `(analysis.metadata?.confidence as number) || 80`: an absent
confidence defaults to 80, and so does an explicit 0, because `0` is
falsy in JavaScript (`waf-engine.ts` line 440). -/
def effConfidence (c : Option ℚ) : ℚ :=
  match c with
  | Option.none => 80
  | Option.some v => if v = 0 then 80 else v

/-- The confidence-adjusted weight of one result (`waf-engine.ts`
lines 437-441). -/
def adjWeight (a : AnalysisResult) : ℚ :=
  weightFor a.analyzer * (effConfidence a.confidence / 100)

/-- The Score Combiner (`waf-engine.ts` lines 419-453): empty list scores
0, a singleton passes through, otherwise a 60/40 blend of the
confidence-weighted average and the maximum. -/
def calculateCombinedScore (analyses : List AnalysisResult) : ℚ :=
  if analyses.length = 0 then 0
  else if analyses.length = 1 then analyses.headI.score
  else
    let weightedSum := (analyses.map (fun a => a.score * adjWeight a)).sum
    let totalWeight := (analyses.map adjWeight).sum
    let maxScore := listMax (analyses.map AnalysisResult.score)
    let avgScore := if 0 < totalWeight then weightedSum / totalWeight else 0
    ((jsRound (avgScore * (6/10) + maxScore * (4/10)) : ℤ) : ℚ)

/-! ## Council aggregator (`llm-analyzer`, council decision engine) -/

/-- The JSON analysis one provider returns (`LLMAnalysis`). -/
structure LLMAnalysis where
  score : ℚ
  attackType : AttackType
  threatLevel : ThreatLevel
  explanation : String
  reasoning : String
  confidence : ℚ
deriving DecidableEq, Repr, Inhabited

/-- Per-provider outcome (`ProviderResult`): status plus an analysis on
success or an error message on failure. -/
inductive PStatus where
  | success | error
deriving DecidableEq, Repr, Inhabited

structure ProviderResult where
  provider : String
  status : PStatus
  analysis : Option LLMAnalysis := Option.none
  errorMsg : Option String := Option.none
deriving DecidableEq, Repr, Inhabited

/-- `results.filter(r => r.status === 'success' && r.analysis)`, paired
with the provider name used by the reduction. -/
def successfulOf (results : List ProviderResult) : List (String × LLMAnalysis) :=
  results.filterMap (fun r =>
    match r.status, r.analysis with
    | PStatus.success, Option.some a => Option.some (r.provider, a)
    | _, _ => Option.none)

/-- `r.analysis!.confidence || 50`: a falsy (zero) confidence becomes 50
inside the council reduction (`councilDecision` line 707). -/
def confOr50 (c : ℚ) : ℚ := if c = 0 then 50 else c

/-- The council's confidence-weighted average score before rounding
(`councilDecision` lines 704-711); a non-positive total confidence
yields 0. -/
def councilWeightedAvg (successful : List (String × LLMAnalysis)) : ℚ :=
  let weightedScoreSum := (successful.map (fun pa => pa.2.score * confOr50 pa.2.confidence)).sum
  let totalConfidence := (successful.map (fun pa => confOr50 pa.2.confidence)).sum
  if 0 < totalConfidence then weightedScoreSum / totalConfidence else 0

/-- Distinct elements of a list in order of first occurrence (the
insertion order of JavaScript object keys in `attackCounts`). -/
def firstDistinct {α : Type} [DecidableEq α] : List α → List α
  | [] => []
  | a :: l => a :: firstDistinct (l.filter (fun b => decide (b ≠ a)))
termination_by l => l.length
decreasing_by
  simp only [List.length_cons]
  exact Nat.lt_succ_of_le (List.length_filter_le _ _)

/-- Stable insertion of `a` into a list sorted descending by `key`:
`a` lands after every earlier element of greater-or-equal key, which is
what a stable `sort((x, y) => key y - key x)` produces. -/
def insertByDesc {α : Type} (key : α → ℚ) (a : α) : List α → List α
  | [] => [a]
  | b :: l => if key a ≤ key b then b :: insertByDesc key a l else a :: b :: l

/-- Stable descending sort by `key` (JavaScript `Array.prototype.sort`
with comparator `(x, y) => key y - key x` is stable). -/
def sortByDesc {α : Type} (key : α → ℚ) (l : List α) : List α :=
  l.foldl (fun acc a => insertByDesc key a acc) []

/-- The aggregated verdict the council reduction produces. -/
structure CouncilVerdict where
  score : ℚ
  attackType : AttackType
  threatLevel : ThreatLevel
  explanation : String
  confidence : ℚ
deriving DecidableEq, Repr, Inhabited

/-- The two-or-more-successes branch of `councilDecision`
(`llm-analyzer` lines 694-756): bucket votes against the thresholds,
take the confidence-weighted rounded average, apply the unanimous-block
boost or the split-vote floor, majority-vote the attack category, and
clamp the final score into [0, 100].  `n < 2 * votesBlock` is
`votes.block > successful.length / 2` over real division. -/
def councilAggregate (successful : List (String × LLMAnalysis))
    (blockThreshold flagThreshold : ℚ) : CouncilVerdict :=
  let n := successful.length
  let votesBlock := (successful.filter (fun pa => decide (blockThreshold ≤ pa.2.score))).length
  let votesFlag := (successful.filter (fun pa =>
    decide (pa.2.score < blockThreshold ∧ flagThreshold ≤ pa.2.score))).length
  let votesAllow := (successful.filter (fun pa =>
    decide (pa.2.score < blockThreshold ∧ pa.2.score < flagThreshold))).length
  let avgScore : ℚ := ((jsRound (councilWeightedAvg successful) : ℤ) : ℚ)
  let finalScore : ℚ :=
    if votesBlock = n then max avgScore (min 100 (avgScore + 10))
    else if n < 2 * votesBlock ∧ 0 < votesAllow then max avgScore flagThreshold
    else avgScore
  let attacks := (successful.map (fun pa => pa.2.attackType)).filter
    (fun t => decide (t ≠ AttackType.none))
  let counts := (firstDistinct attacks).map (fun t => (t, attacks.count t))
  let topAttack := (sortByDesc (fun tc => (tc.2 : ℚ)) counts).head?
  let attackType :=
    match topAttack with
    | Option.some tc => tc.1
    | Option.none => AttackType.none
  let providerSummaries := String.intercalate " | "
    (successful.map (fun pa => pa.1 ++ ": score=" ++ toString pa.2.score))
  let agreementNote :=
    if votesBlock = n then "Unanimous: malicious"
    else if votesAllow = n then "Unanimous: safe"
    else "Split (" ++ toString votesBlock ++ "B/" ++ toString votesFlag ++ "F/"
      ++ toString votesAllow ++ "A)"
  let avgConfidence : ℚ :=
    ((jsRound ((successful.map (fun pa => confOr50 pa.2.confidence)).sum / (n : ℚ)) : ℤ) : ℚ)
  { score := min 100 (max 0 finalScore)
    attackType := attackType
    threatLevel := threatLevelOfScore finalScore
    explanation := "Council of " ++ toString n ++ ": " ++ agreementNote ++ ". ["
      ++ providerSummaries ++ "]"
    confidence := avgConfidence }

/-- `councilDecision` (`llm-analyzer` lines 678-756): zero successes
yield the neutral total-failure verdict, a single success passes
through, two or more are aggregated. -/
def councilDecision (results : List ProviderResult)
    (blockThreshold flagThreshold : ℚ) : CouncilVerdict :=
  match successfulOf results with
  | [] =>
    { score := 0, attackType := AttackType.none, threatLevel := ThreatLevel.none
      explanation := "All LLM providers failed — relying on other analyzers"
      confidence := 0 }
  | [pa] =>
    { score := pa.2.score, attackType := pa.2.attackType, threatLevel := pa.2.threatLevel
      explanation := "[" ++ pa.1 ++ "] " ++ pa.2.explanation
      confidence := pa.2.confidence }
  | pa :: pb :: rest => councilAggregate (pa :: pb :: rest) blockThreshold flagThreshold

/-- What `analyzeWithLLMCouncil` hands back to the orchestrator
(`CouncilResult`): the aggregated result plus per-provider notes and the
lists of succeeded and failed providers. -/
structure CouncilResult where
  result : AnalysisResult
  providerNotes : List String
  activeProviders : List String
  discardedProviders : List String
deriving DecidableEq, Repr, Inhabited

/-! ## Policy store and its update boundary -/

/-- The effective (fully populated) policy, `Required<PolicyConfig>`. -/
structure PolicyConfig where
  flagThreshold : ℚ
  blockThreshold : ℚ
  enabledAnalyzers : List String
  customPatterns : List String
  blockedTopics : List String
  maxInputLength : ℚ
  llmSkipLow : ℚ
  llmSkipHigh : ℚ
  alwaysRunLLM : Bool
  outputLLMEnabled : Bool
deriving DecidableEq, Repr, Inhabited

/-- A partial policy (`Partial<PolicyConfig>` / `PolicyConfig` with all
fields optional): per-request overrides and update patches. -/
structure PolicyPatch where
  flagThreshold : Option ℚ := Option.none
  blockThreshold : Option ℚ := Option.none
  enabledAnalyzers : Option (List String) := Option.none
  customPatterns : Option (List String) := Option.none
  blockedTopics : Option (List String) := Option.none
  maxInputLength : Option ℚ := Option.none
  llmSkipLow : Option ℚ := Option.none
  llmSkipHigh : Option ℚ := Option.none
  alwaysRunLLM : Option Bool := Option.none
  outputLLMEnabled : Option Bool := Option.none
deriving DecidableEq, Repr, Inhabited

/-- Spread-merge `{ ...base, ...patch }`: a field present in the patch
wins, an absent field keeps the base value; array fields are replaced
wholesale, never appended. -/
def mergePolicy (base : PolicyConfig) (p : Option PolicyPatch) : PolicyConfig :=
  match p with
  | Option.none => base
  | Option.some patch =>
    { flagThreshold := patch.flagThreshold.getD base.flagThreshold
      blockThreshold := patch.blockThreshold.getD base.blockThreshold
      enabledAnalyzers := patch.enabledAnalyzers.getD base.enabledAnalyzers
      customPatterns := patch.customPatterns.getD base.customPatterns
      blockedTopics := patch.blockedTopics.getD base.blockedTopics
      maxInputLength := patch.maxInputLength.getD base.maxInputLength
      llmSkipLow := patch.llmSkipLow.getD base.llmSkipLow
      llmSkipHigh := patch.llmSkipHigh.getD base.llmSkipHigh
      alwaysRunLLM := patch.alwaysRunLLM.getD base.alwaysRunLLM
      outputLLMEnabled := patch.outputLLMEnabled.getD base.outputLLMEnabled }

/-- `DEFAULT_POLICY` (`waf-engine.ts` lines 22-33). -/
def DEFAULT_POLICY : PolicyConfig :=
  { flagThreshold := 40
    blockThreshold := 70
    enabledAnalyzers := ["heuristic", "llm_intent"]
    customPatterns := []
    blockedTopics := []
    maxInputLength := 10000
    llmSkipLow := 15
    llmSkipHigh := 90
    alwaysRunLLM := false
    outputLLMEnabled := false }

/-- `updateGlobalPolicy` (`waf-engine.ts` lines 53-63) as a pure state
transition: spread-merge of the patch over the current policy, arrays
replaced. -/
def updateGlobalPolicy (current : PolicyConfig) (patch : PolicyPatch) : PolicyConfig :=
  mergePolicy current (Option.some patch)

/-- `resetGlobalPolicy` restores the defaults. -/
def resetGlobalPolicy : PolicyConfig := DEFAULT_POLICY

/-- The raw body of a `PUT /api/waf/config` request, as far as the
handler inspects it.  Numeric fields carry the result of `Number(...)`
on a numeric JSON value; an array-typed field carries
`Option.some Option.none` when the key is present but the value is not
an array (the case the handler rejects). -/
structure RawPatch where
  flagThreshold : Option ℚ := Option.none
  blockThreshold : Option ℚ := Option.none
  maxInputLength : Option ℚ := Option.none
  enabledAnalyzers : Option (Option (List String)) := Option.none
  customPatterns : Option (Option (List String)) := Option.none
  blockedTopics : Option (Option (List String)) := Option.none
  llmSkipLow : Option ℚ := Option.none
  llmSkipHigh : Option ℚ := Option.none
  alwaysRunLLM : Option Bool := Option.none
  outputLLMEnabled : Option Bool := Option.none
deriving DecidableEq, Repr, Inhabited

/-- `Math.max(lo, Math.min(hi, x))`. -/
def clampTo (lo hi x : ℚ) : ℚ := max lo (min hi x)

/-- The `PUT /api/waf/config` handler (`server.ts` lines 162-203):
numeric thresholds are clamped into their ranges (never rejected),
array-typed fields of the wrong type are rejected with a descriptive
error before `updateGlobalPolicy` runs, booleans are coerced, and the
cleaned patch is merged into the stored policy. -/
def putConfig (stored : PolicyConfig) (patch : RawPatch) : Except String PolicyConfig :=
  if patch.enabledAnalyzers = Option.some Option.none then
    Except.error "enabledAnalyzers must be an array"
  else if patch.customPatterns = Option.some Option.none then
    Except.error "customPatterns must be an array of regex strings"
  else if patch.blockedTopics = Option.some Option.none then
    Except.error "blockedTopics must be an array of strings"
  else
    Except.ok (updateGlobalPolicy stored
      { flagThreshold := patch.flagThreshold.map (clampTo 0 100)
        blockThreshold := patch.blockThreshold.map (clampTo 0 100)
        maxInputLength := patch.maxInputLength.map (clampTo 100 100000)
        enabledAnalyzers := patch.enabledAnalyzers.join
        customPatterns := patch.customPatterns.join
        blockedTopics := patch.blockedTopics.join
        llmSkipLow := patch.llmSkipLow.map (clampTo 0 100)
        llmSkipHigh := patch.llmSkipHigh.map (clampTo 0 100)
        alwaysRunLLM := patch.alwaysRunLLM
        outputLLMEnabled := patch.outputLLMEnabled })

/-! ## Requests, decisions, and the detector environment -/

/-- An incoming request (`WAFRequest`). -/
structure WAFRequest where
  input : String
  systemPrompt : Option String := Option.none
  agentId : Option String := Option.none
  sessionId : Option String := Option.none
  policy : Option PolicyPatch := Option.none
deriving DecidableEq, Repr, Inhabited

/-- The final decision (`WAFDecision`); uuid, timestamp and wall-clock
latency are omitted as I/O. -/
structure WAFDecision where
  action : WAFAction
  overallScore : ℚ
  threatLevel : ThreatLevel
  explanation : String
  analyses : List AnalysisResult
  originalInput : String
  scanType : ScanType
  analyzersUsed : List String
  notes : List String
deriving DecidableEq, Repr, Inhabited

/-- The external collaborators the orchestrator calls (spec §1): the
heuristic pattern detector, the LLM council (input, system prompt, block
threshold, flag threshold), the output detector (output, original input,
system prompt), and the regex engine used for custom patterns.  A
pattern whose compilation or test throws behaves like a non-match, which
is observationally the silent skip in `checkCustomPatterns`. -/
structure DetectorEnv where
  heuristic : String → AnalysisResult
  council : String → Option String → ℚ → ℚ → CouncilResult
  outputAnalyzer : String → String → Option String → AnalysisResult
  regexTest : String → String → Bool

/-- `checkCustomPatterns` (`waf-engine.ts` lines 361-389); the
`matchedPatterns` metadata carries no confidence, hence
`confidence := none`. -/
def checkCustomPatterns (env : DetectorEnv) (input : String)
    (patterns : List String) : AnalysisResult :=
  let matched := patterns.filter (fun p => env.regexTest p input)
  let score : ℚ := if 0 < matched.length then min 100 (50 + matched.length * 15) else 0
  { analyzer := "custom_patterns"
    score := score
    explanation :=
      if 0 < matched.length then
        "Matched " ++ toString matched.length ++ " custom pattern(s): "
          ++ String.intercalate ", " (matched.map (fun p => "/" ++ p ++ "/"))
      else "No custom patterns matched"
    attackType := if 0 < matched.length then AttackType.prompt_injection else AttackType.none
    threatLevel :=
      if score ≥ 80 then ThreatLevel.critical
      else if score ≥ 60 then ThreatLevel.high
      else if score ≥ 40 then ThreatLevel.medium
      else ThreatLevel.none
    confidence := Option.none }

/-- `checkBlockedTopics` (`waf-engine.ts` lines 395-413): case-insensitive
substring matching. -/
def checkBlockedTopics (input : String) (topics : List String) : AnalysisResult :=
  let lowerInput := input.toLower
  let matched := topics.filter (fun t => decide (t.toLower.toList <:+: lowerInput.toList))
  let score : ℚ := if 0 < matched.length then min 100 (60 + matched.length * 10) else 0
  { analyzer := "blocked_topics"
    score := score
    explanation :=
      if 0 < matched.length then
        "Input contains blocked topic(s): " ++ String.intercalate ", " matched
      else "No blocked topics found"
    attackType := if 0 < matched.length then AttackType.prompt_injection else AttackType.none
    threatLevel :=
      if score ≥ 80 then ThreatLevel.critical
      else if score ≥ 60 then ThreatLevel.high
      else if score ≥ 40 then ThreatLevel.medium
      else ThreatLevel.none
    confidence := Option.none }

/-- `formatAttackType` replaces underscores with spaces and capitalizes
the first letter of each word; tabulated here on the closed enumeration
of attack categories. -/
def formatAttackType (t : AttackType) : String :=
  match t with
  | AttackType.prompt_injection => "Prompt Injection"
  | AttackType.jailbreak => "Jailbreak"
  | AttackType.data_exfiltration => "Data Exfiltration"
  | AttackType.privilege_escalation => "Privilege Escalation"
  | AttackType.encoding_attack => "Encoding Attack"
  | AttackType.indirect_injection => "Indirect Injection"
  | AttackType.delimiter_attack => "Delimiter Attack"
  | AttackType.social_engineering => "Social Engineering"
  | AttackType.output_manipulation => "Output Manipulation"
  | AttackType.none => "None"

/-- `generateExplanation` (`waf-engine.ts` lines 459-488). -/
def generateExplanation (action : WAFAction) (analyses : List AnalysisResult)
    (score : ℚ) : String :=
  match action with
  | WAFAction.allow =>
    "Input appears safe (score: " ++ toString score ++ "/100). No significant threats detected."
  | _ =>
    let findings := sortByDesc AnalysisResult.score (analyses.filter (fun a => decide (20 < a.score)))
    match findings with
    | [] =>
      "Input " ++ (if action = WAFAction.block then "blocked" else "flagged")
        ++ " (score: " ++ toString score ++ "/100)."
    | primary :: rest =>
      let base := (if action = WAFAction.block then "🚫 BLOCKED" else "⚠️ FLAGGED")
        ++ " (score: " ++ toString score ++ "/100) — Primary threat: "
        ++ formatAttackType primary.attackType ++ ". " ++ primary.explanation
      if rest = [] then base
      else base ++ " Additional signals: "
        ++ String.intercalate ", " (rest.map (fun f => formatAttackType f.attackType)) ++ "."

/-! ## Pipeline orchestrator (`analyzeInput` / `analyzeOutputSafety`) -/

/-- The mutable accumulators (`analyses`, `analyzersUsed`, `notes`) the
pipeline pushes onto, threaded explicitly. -/
structure PipeAcc where
  analyses : List AnalysisResult
  used : List String
  notes : List String
deriving DecidableEq, Repr, Inhabited

def initAcc : PipeAcc := { analyses := [], used := [], notes := [] }

/-- Step 0: custom patterns — included only on a positive score
(`waf-engine.ts` lines 162-169). -/
def customStep (env : DetectorEnv) (policy : PolicyConfig) (input : String)
    (acc : PipeAcc) : PipeAcc :=
  if 0 < policy.customPatterns.length then
    let customResult := checkCustomPatterns env input policy.customPatterns
    if 0 < customResult.score then
      { analyses := acc.analyses ++ [customResult]
        used := acc.used ++ ["custom_patterns"]
        notes := acc.notes ++ ["custom patterns used"] }
    else acc
  else acc

/-- Step 0b: blocked topics — same inclusion rule (`waf-engine.ts`
lines 172-179). -/
def topicStep (policy : PolicyConfig) (input : String) (acc : PipeAcc) : PipeAcc :=
  if 0 < policy.blockedTopics.length then
    let topicResult := checkBlockedTopics input policy.blockedTopics
    if 0 < topicResult.score then
      { analyses := acc.analyses ++ [topicResult]
        used := acc.used ++ ["blocked_topics"]
        notes := acc.notes ++ ["blocked topics matched"] }
    else acc
  else acc

/-- Step 1: heuristic analysis — always included when enabled
(`waf-engine.ts` lines 182-187). -/
def heuristicStep (env : DetectorEnv) (policy : PolicyConfig) (input : String)
    (acc : PipeAcc) : PipeAcc :=
  if "heuristic" ∈ policy.enabledAnalyzers then
    let heuristicResult := env.heuristic input
    { analyses := acc.analyses ++ [heuristicResult]
      used := acc.used ++ ["heuristic"]
      notes := acc.notes ++ ["heuristic used (score: " ++ toString heuristicResult.score ++ ")"] }
  else acc

/-- The accumulator state after steps 0-1, before the council decision. -/
def preCouncil (env : DetectorEnv) (policy : PolicyConfig) (input : String) : PipeAcc :=
  heuristicStep env policy input (topicStep policy input (customStep env policy input initAcc))

/-- The note recorded when the council is skipped (`waf-engine.ts`
line 240). -/
def skipNote (top low high : ℚ) : String :=
  "LLM council skipped (heuristic score " ++ toString top ++ " outside range "
    ++ toString low ++ "-" ++ toString high ++ ")"

/-- Step 2: the LLM council (`waf-engine.ts` lines 190-242): gate on
`alwaysRunLLM` or the top score so far in `[llmSkipLow, llmSkipHigh)`;
on total failure mark the council failed and force the heuristic
fallback when the heuristic analyzer was not already enabled. -/
def councilStep (env : DetectorEnv) (policy : PolicyConfig) (input : String)
    (systemPrompt : Option String) (acc : PipeAcc) : PipeAcc :=
  if "llm_intent" ∈ policy.enabledAnalyzers then
    let topHeuristicScore := listMax0 (acc.analyses.map AnalysisResult.score)
    if policy.alwaysRunLLM = true ∨
        (policy.llmSkipLow ≤ topHeuristicScore ∧ topHeuristicScore < policy.llmSkipHigh) then
      let council := env.council input systemPrompt policy.blockThreshold policy.flagThreshold
      if council.activeProviders = [] ∧ council.discardedProviders ≠ [] then
        let acc1 : PipeAcc :=
          { analyses := acc.analyses
            used := acc.used ++ ["llm_council(failed)"]
              ++ council.discardedProviders.map (fun p => "llm:" ++ p ++ "(failed)")
            notes := acc.notes ++ council.providerNotes
              ++ ["⚠ LLM council FAILED: all providers unavailable"] }
        if "heuristic" ∈ policy.enabledAnalyzers then acc1
        else
          let fallbackResult := env.heuristic input
          { analyses := acc1.analyses ++ [fallbackResult]
            used := acc1.used ++ ["heuristic(fallback)"]
            notes := acc1.notes ++ ["heuristic used as FALLBACK (score: "
              ++ toString fallbackResult.score ++ ") — forced because all LLM providers failed"] }
      else
        { analyses := acc.analyses ++ [council.result]
          used := acc.used ++ ["llm_council"]
            ++ council.activeProviders.map (fun p => "llm:" ++ p)
            ++ council.discardedProviders.map (fun p => "llm:" ++ p ++ "(failed)")
          notes := acc.notes ++ council.providerNotes }
    else
      { analyses := acc.analyses
        used := acc.used ++ ["llm_council(skipped)"]
        notes := acc.notes ++ [skipNote topHeuristicScore policy.llmSkipLow policy.llmSkipHigh] }
  else acc

/-- `analyzeInput` (`waf-engine.ts` lines 136-271): merge the override
over the process-wide policy, short-circuit over-long input, run steps
0-2, combine, classify, and explain. -/
def analyzeInput (env : DetectorEnv) (globalPolicy : PolicyConfig)
    (request : WAFRequest) : WAFDecision :=
  let policy := mergePolicy globalPolicy request.policy
  if (request.input.length : ℚ) > policy.maxInputLength then
    { action := WAFAction.block
      overallScore := 100
      threatLevel := ThreatLevel.critical
      explanation := "Input exceeds maximum length (" ++ toString request.input.length
        ++ " > " ++ toString policy.maxInputLength
        ++ " chars). This may be a context overflow attack."
      analyses := []
      originalInput := request.input.take 500 ++ "... [truncated]"
      scanType := ScanType.input
      analyzersUsed := ["length_check"]
      notes := ["Input auto-blocked: length exceeded"] }
  else
    let acc := councilStep env policy request.input request.systemPrompt
      (preCouncil env policy request.input)
    let combinedScore := calculateCombinedScore acc.analyses
    let action :=
      if combinedScore ≥ policy.blockThreshold then WAFAction.block
      else if combinedScore ≥ policy.flagThreshold then WAFAction.flag
      else WAFAction.allow
    { action := action
      overallScore := combinedScore
      threatLevel := threatLevelOfScore combinedScore
      explanation := generateExplanation action acc.analyses combinedScore
      analyses := acc.analyses
      originalInput := request.input
      scanType := ScanType.input
      analyzersUsed := acc.used
      notes := acc.notes }

/-- `analyzeOutputSafety` (`waf-engine.ts` lines 276-351): always run the
output detector; run the council only when `outputLLMEnabled` is set
and the `llm_intent` analyzer is enabled; combine only when more than
one analysis was produced. -/
def analyzeOutputSafety (env : DetectorEnv) (globalPolicy : PolicyConfig)
    (output originalInput : String) (systemPrompt : Option String) : WAFDecision :=
  let policy := globalPolicy
  let result := env.outputAnalyzer output originalInput systemPrompt
  let acc0 : PipeAcc :=
    { analyses := [result], used := ["output_validator"], notes := ["output validator used"] }
  let acc :=
    if policy.outputLLMEnabled = true ∧ "llm_intent" ∈ policy.enabledAnalyzers then
      let council := env.council
        ("[OUTPUT VALIDATION] The following is an AI agent\x27s response to validate for safety:\n\n"
          ++ output)
        systemPrompt policy.blockThreshold policy.flagThreshold
      if council.activeProviders = [] ∧ council.discardedProviders ≠ [] then
        { analyses := acc0.analyses
          used := acc0.used ++ ["llm_council(failed)"]
            ++ council.discardedProviders.map (fun p => "llm:" ++ p ++ "(failed)")
          notes := acc0.notes ++ council.providerNotes
            ++ ["⚠ LLM council FAILED for output: all providers unavailable — relying on output validator only"] }
      else
        { analyses := acc0.analyses ++ [council.result]
          used := acc0.used ++ ["llm_council"]
            ++ council.activeProviders.map (fun p => "llm:" ++ p)
            ++ council.discardedProviders.map (fun p => "llm:" ++ p ++ "(failed)")
          notes := acc0.notes ++ council.providerNotes }
    else acc0
  let combinedScore :=
    if 1 < acc.analyses.length then calculateCombinedScore acc.analyses else result.score
  let action :=
    if combinedScore ≥ policy.blockThreshold then WAFAction.block
    else if combinedScore ≥ policy.flagThreshold then WAFAction.flag
    else WAFAction.allow
  { action := action
    overallScore := combinedScore
    threatLevel := threatLevelOfScore combinedScore
    explanation := result.explanation
    analyses := acc.analyses
    originalInput := output
    scanType := ScanType.output
    analyzersUsed := acc.used
    notes := acc.notes }

/-! ## Security log -/

/-- A log entry (`SecurityLog`); uuid and timestamp omitted as I/O. -/
structure SecurityLog where
  input : String
  decision : WAFDecision
  scanType : ScanType
  analyzersUsed : List String
  agentId : Option String := Option.none
  sessionId : Option String := Option.none
deriving DecidableEq, Repr, Inhabited

def MAX_LOGS : ℕ := 1000

/-- The push-then-trim sequence at the end of `logDecision` and
`analyzeOutputSafety`: `push(entry)` followed by
`splice(0, length - MAX_LOGS)` when over capacity. -/
def appendLog (entry : SecurityLog) (logs : List SecurityLog) : List SecurityLog :=
  let l := logs ++ [entry]
  if MAX_LOGS < l.length then l.drop (l.length - MAX_LOGS) else l

/-- `logDecision` (`waf-engine.ts` lines 502-519) as a pure state
transition on the log. -/
def logDecision (decision : WAFDecision) (request : WAFRequest)
    (logs : List SecurityLog) : List SecurityLog :=
  appendLog
    { input := request.input.take 500
      decision := decision
      scanType := decision.scanType
      analyzersUsed := decision.analyzersUsed
      agentId := request.agentId
      sessionId := request.sessionId }
    logs

/-- `getSecurityLogs` (`waf-engine.ts` lines 82-84):
`logs.slice(-limit).reverse()`.  JavaScript `slice(-0)` is `slice(0)`,
so a zero limit returns the whole log (reversed); a positive limit
returns the last `limit` entries, newest first. -/
def getSecurityLogs (limit : ℕ) (logs : List SecurityLog) : List SecurityLog :=
  if limit = 0 then logs.reverse
  else (logs.drop (logs.length - limit)).reverse

/-! ## Shared concrete sample values (used by witnesses and
counterexamples) -/

/-- A benign heuristic result used as a concrete detector output. -/
def sampleHeuristic : AnalysisResult :=
  { analyzer := "heuristic"
    score := 37
    explanation := "Matched 1 suspicious pattern"
    attackType := AttackType.prompt_injection
    threatLevel := ThreatLevel.low
    confidence := Option.none }

/-- A concrete council analysis result. -/
def sampleCouncilResult : AnalysisResult :=
  { analyzer := "llm_council"
    score := 80
    explanation := "[anthropic] Clear injection attempt"
    attackType := AttackType.jailbreak
    threatLevel := ThreatLevel.critical
    confidence := Option.some 90 }

/-- A concrete output-validator result. -/
def sampleOutputResult : AnalysisResult :=
  { analyzer := "output_validator"
    score := 5
    explanation := "No issues detected in output"
    attackType := AttackType.none
    threatLevel := ThreatLevel.none
    confidence := Option.none }

/-- A detector environment in which the single council provider
succeeds. -/
def envOk : DetectorEnv :=
  { heuristic := fun _ => sampleHeuristic
    council := fun _ _ _ _ =>
      { result := sampleCouncilResult
        providerNotes := ["anthropic analyzer used (score: 80, 10ms)"]
        activeProviders := ["anthropic"]
        discardedProviders := [] }
    outputAnalyzer := fun _ _ _ => sampleOutputResult
    regexTest := fun _ _ => false }

/-- A detector environment in which every council provider fails. -/
def envFail : DetectorEnv :=
  { heuristic := fun _ => sampleHeuristic
    council := fun _ _ _ _ =>
      { result :=
          { analyzer := "llm_council"
            score := 0
            explanation := "All LLM providers failed — relying on other analyzers"
            attackType := AttackType.none
            threatLevel := ThreatLevel.none
            confidence := Option.some 0 }
        providerNotes := ["anthropic analyzer discarded (Missing API key)"]
        activeProviders := []
        discardedProviders := ["anthropic"] }
    outputAnalyzer := fun _ _ _ => sampleOutputResult
    regexTest := fun _ _ => false }

/-! ## C1 — length short-circuit -/

/-- C1: whenever the input is longer than the effective policy's
`maxInputLength`, `analyzeInput` short-circuits before any detector runs
(the decision is the same for every detector environment) and returns
`action = block`, `overallScore = 100`, `threatLevel = critical`, no
analyses, and `analyzersUsed = ["length_check"]`, for every policy —
in particular regardless of the flag and block thresholds. -/
theorem analyzeInput_length_short_circuit (env env2 : DetectorEnv)
    (gp : PolicyConfig) (req : WAFRequest)
    (hlen : (req.input.length : ℚ) > (mergePolicy gp req.policy).maxInputLength) :
    (analyzeInput env gp req).action = WAFAction.block ∧
    (analyzeInput env gp req).overallScore = 100 ∧
    (analyzeInput env gp req).threatLevel = ThreatLevel.critical ∧
    (analyzeInput env gp req).analyses = [] ∧
    (analyzeInput env gp req).analyzersUsed = ["length_check"] ∧
    analyzeInput env gp req = analyzeInput env2 gp req := by
  have key : ∀ e : DetectorEnv, analyzeInput e gp req =
      { action := WAFAction.block
        overallScore := 100
        threatLevel := ThreatLevel.critical
        explanation := "Input exceeds maximum length (" ++ toString req.input.length
          ++ " > " ++ toString (mergePolicy gp req.policy).maxInputLength
          ++ " chars). This may be a context overflow attack."
        analyses := []
        originalInput := req.input.take 500 ++ "... [truncated]"
        scanType := ScanType.input
        analyzersUsed := ["length_check"]
        notes := ["Input auto-blocked: length exceeded"] } := by
    intro e
    unfold analyzeInput
    exact if_pos hlen
  rw [key env, key env2]
  exact ⟨rfl, rfl, rfl, rfl, rfl, rfl⟩

/-- A request whose 3-character input exceeds a per-request
`maxInputLength` override of 2. -/
def reqOverlong : WAFRequest :=
  { input := "abc"
    policy := Option.some { maxInputLength := Option.some 2 } }

/-- Witness for C1 at a concrete over-long request. -/
theorem analyzeInput_length_short_circuit_witness :
    (analyzeInput envOk DEFAULT_POLICY reqOverlong).action = WAFAction.block ∧
    (analyzeInput envOk DEFAULT_POLICY reqOverlong).overallScore = 100 ∧
    (analyzeInput envOk DEFAULT_POLICY reqOverlong).threatLevel = ThreatLevel.critical ∧
    (analyzeInput envOk DEFAULT_POLICY reqOverlong).analyses = [] ∧
    (analyzeInput envOk DEFAULT_POLICY reqOverlong).analyzersUsed = ["length_check"] ∧
    analyzeInput envOk DEFAULT_POLICY reqOverlong = analyzeInput envFail DEFAULT_POLICY reqOverlong :=
  analyzeInput_length_short_circuit envOk envFail DEFAULT_POLICY reqOverlong (by decide)

/-! ## C2 — forced heuristic fallback on total council failure -/

/-- C2: when the council is invoked and reports total failure (no
successful provider, at least one attempted) while the heuristic
analyzer is not enabled in the policy, `analyzeInput` force-runs the
heuristic detector anyway: its result appears in the decision's
analyses, `analyzersUsed` contains the `(fallback)`-suffixed heuristic
entry, and the pipeline still produces a decision (the embedding is a
total function; the `scanType` conjunct exhibits the returned
decision). -/
theorem analyzeInput_council_failure_fallback (env : DetectorEnv) (gp : PolicyConfig)
    (req : WAFRequest) (policy : PolicyConfig)
    (hp : policy = mergePolicy gp req.policy)
    (hlen : ¬ ((req.input.length : ℚ) > policy.maxInputLength))
    (hllm : "llm_intent" ∈ policy.enabledAnalyzers)
    (hheur : "heuristic" ∉ policy.enabledAnalyzers)
    (hrun : policy.alwaysRunLLM = true ∨
      (policy.llmSkipLow ≤
          listMax0 ((preCouncil env policy req.input).analyses.map AnalysisResult.score) ∧
        listMax0 ((preCouncil env policy req.input).analyses.map AnalysisResult.score) <
          policy.llmSkipHigh))
    (hfail :
      (env.council req.input req.systemPrompt policy.blockThreshold
        policy.flagThreshold).activeProviders = [] ∧
      (env.council req.input req.systemPrompt policy.blockThreshold
        policy.flagThreshold).discardedProviders ≠ []) :
    env.heuristic req.input ∈ (analyzeInput env gp req).analyses ∧
    "heuristic(fallback)" ∈ (analyzeInput env gp req).analyzersUsed ∧
    (analyzeInput env gp req).scanType = ScanType.input := by
  subst hp
  simp only [analyzeInput, if_neg hlen, councilStep, if_pos hllm, if_pos hrun,
    if_pos hfail, if_neg hheur]
  refine ⟨?_, ?_, trivial⟩
  · simp [List.mem_append]
  · simp [List.mem_append]

/-- A policy with only the council enabled (no heuristic), always
invoking the council. -/
def policyCouncilOnly : PolicyConfig :=
  { DEFAULT_POLICY with
    enabledAnalyzers := ["llm_intent"]
    alwaysRunLLM := true }

/-- Witness for C2: two hypothetical providers both fail, the heuristic
analyzer is disabled, and the fallback still appears in the decision. -/
theorem analyzeInput_council_failure_fallback_witness :
    envFail.heuristic "hello" ∈
      (analyzeInput envFail policyCouncilOnly { input := "hello" }).analyses ∧
    "heuristic(fallback)" ∈
      (analyzeInput envFail policyCouncilOnly { input := "hello" }).analyzersUsed ∧
    (analyzeInput envFail policyCouncilOnly { input := "hello" }).scanType = ScanType.input :=
  analyzeInput_council_failure_fallback envFail policyCouncilOnly { input := "hello" }
    (mergePolicy policyCouncilOnly Option.none) rfl (by decide) (by decide) (by decide)
    (Or.inl (by decide)) ⟨by decide, by decide⟩

/-! ## C6 — council gating on input analysis -/

/-- The analyzers recorded before the council step are drawn from the
three local detectors. -/
theorem preCouncil_used_mem (env : DetectorEnv) (policy : PolicyConfig) (input : String) :
    ∀ x ∈ (preCouncil env policy input).used,
      x = "custom_patterns" ∨ x = "blocked_topics" ∨ x = "heuristic" := by
  intro x hx
  unfold preCouncil heuristicStep topicStep customStep initAcc at hx
  split_ifs at hx <;> simp_all <;>
    (try (split_ifs at hx <;> simp_all)) <;>
    tauto

/-- C6: with the `llm_intent` analyzer enabled (and the length check
passed), the council is invoked — leaving an `llm_council` or
`llm_council(failed)` entry in `analyzersUsed` — exactly when
`alwaysRunLLM` is set or the top score gathered so far lies in
`[llmSkipLow, llmSkipHigh)`; otherwise `analyzersUsed` carries the
`llm_council(skipped)` entry and the notes record the skip with the
score and both thresholds. -/
theorem analyzeInput_council_gating (env : DetectorEnv) (gp : PolicyConfig)
    (req : WAFRequest) (policy : PolicyConfig) (top : ℚ)
    (hp : policy = mergePolicy gp req.policy)
    (htop : top = listMax0 ((preCouncil env policy req.input).analyses.map AnalysisResult.score))
    (hlen : ¬ ((req.input.length : ℚ) > policy.maxInputLength))
    (hen : "llm_intent" ∈ policy.enabledAnalyzers) :
    ((policy.alwaysRunLLM = true ∨
        (policy.llmSkipLow ≤ top ∧ top < policy.llmSkipHigh)) ↔
      ("llm_council" ∈ (analyzeInput env gp req).analyzersUsed ∨
        "llm_council(failed)" ∈ (analyzeInput env gp req).analyzersUsed)) ∧
    (¬ (policy.alwaysRunLLM = true ∨
        (policy.llmSkipLow ≤ top ∧ top < policy.llmSkipHigh)) →
      ("llm_council(skipped)" ∈ (analyzeInput env gp req).analyzersUsed ∧
        skipNote top policy.llmSkipLow policy.llmSkipHigh ∈ (analyzeInput env gp req).notes)) := by
  subst hp
  subst htop
  simp only [analyzeInput, if_neg hlen, councilStep, if_pos hen]
  by_cases hrun : (mergePolicy gp req.policy).alwaysRunLLM = true ∨
      ((mergePolicy gp req.policy).llmSkipLow ≤
          listMax0 ((preCouncil env (mergePolicy gp req.policy) req.input).analyses.map
            AnalysisResult.score) ∧
        listMax0 ((preCouncil env (mergePolicy gp req.policy) req.input).analyses.map
          AnalysisResult.score) < (mergePolicy gp req.policy).llmSkipHigh)
  · rw [if_pos hrun]
    refine ⟨⟨fun _ => ?_, fun _ => hrun⟩, fun hn => absurd hrun hn⟩
    by_cases hfail :
        (env.council req.input req.systemPrompt (mergePolicy gp req.policy).blockThreshold
          (mergePolicy gp req.policy).flagThreshold).activeProviders = [] ∧
        (env.council req.input req.systemPrompt (mergePolicy gp req.policy).blockThreshold
          (mergePolicy gp req.policy).flagThreshold).discardedProviders ≠ []
    · rw [if_pos hfail]
      by_cases hh : "heuristic" ∈ (mergePolicy gp req.policy).enabledAnalyzers
      · rw [if_pos hh]
        exact Or.inr (by simp [List.mem_append])
      · rw [if_neg hh]
        exact Or.inr (by simp [List.mem_append])
    · rw [if_neg hfail]
      exact Or.inl (by simp [List.mem_append])
  · rw [if_neg hrun]
    refine ⟨⟨fun h => absurd h hrun, fun h => ?_⟩, fun _ => ?_⟩
    · exfalso
      rcases h with h | h <;>
      · rcases List.mem_append.mp h with h2 | h2
        · rcases preCouncil_used_mem env (mergePolicy gp req.policy) req.input _ h2 with
            h3 | h3 | h3 <;> simp_all
        · simp_all
    · constructor
      · simp [List.mem_append]
      · simp [List.mem_append]

/-- A policy with the council enabled and a narrow invoke band that the
concrete heuristic score 37 misses. -/
def policyNarrowBand : PolicyConfig :=
  { DEFAULT_POLICY with llmSkipLow := 0, llmSkipHigh := 30 }

/-- Witness for C6: heuristic score 37 falls outside the band
`[0, 30)`, so the council is skipped and the skip note is recorded. -/
theorem analyzeInput_council_gating_witness :
    "llm_council(skipped)" ∈
      (analyzeInput envOk policyNarrowBand { input := "hello" }).analyzersUsed ∧
    skipNote 37 0 30 ∈ (analyzeInput envOk policyNarrowBand { input := "hello" }).notes :=
  (analyzeInput_council_gating envOk policyNarrowBand { input := "hello" }
    (mergePolicy policyNarrowBand Option.none)
    (listMax0 ((preCouncil envOk (mergePolicy policyNarrowBand Option.none)
      "hello").analyses.map AnalysisResult.score))
    rfl rfl (by decide) (by decide)).2 (by decide)

/-! ## C7 — council gating on output validation -/

/-- A policy with the output council flag set but `llm_intent` absent
from the enabled analyzers. -/
def policyOutputNoLLMIntent : PolicyConfig :=
  { DEFAULT_POLICY with
    outputLLMEnabled := true
    enabledAnalyzers := ["heuristic"] }

/-- C7 counterexample: with `outputLLMEnabled = true` but `llm_intent`
not in `enabledAnalyzers`, output validation does *not* invoke the
council — `analyzersUsed` is exactly `["output_validator"]`, with no
council entry — refuting the claim that the gate is purely
`output_council_enabled`. -/
theorem analyzeOutputSafety_flag_only_counterexample :
    policyOutputNoLLMIntent.outputLLMEnabled = true ∧
    (analyzeOutputSafety envOk policyOutputNoLLMIntent "All good" "hi"
      Option.none).analyzersUsed = ["output_validator"] := by
  constructor
  · rfl
  · decide

/-- C7 amended: in `analyzeOutputSafety` the council runs exactly when
`outputLLMEnabled` is set *and* `llm_intent` is among the enabled
analyzers; score banding plays no role (the equivalence holds for every
environment, so for every detector score). -/
theorem analyzeOutputSafety_council_gate (env : DetectorEnv) (gp : PolicyConfig)
    (output originalInput : String) (sp : Option String) :
    ("llm_council" ∈ (analyzeOutputSafety env gp output originalInput sp).analyzersUsed ∨
      "llm_council(failed)" ∈
        (analyzeOutputSafety env gp output originalInput sp).analyzersUsed) ↔
    (gp.outputLLMEnabled = true ∧ "llm_intent" ∈ gp.enabledAnalyzers) := by
  simp only [analyzeOutputSafety]
  by_cases hc : gp.outputLLMEnabled = true ∧ "llm_intent" ∈ gp.enabledAnalyzers
  · rw [if_pos hc]
    by_cases hfail :
        (env.council
          ("[OUTPUT VALIDATION] The following is an AI agent\x27s response to validate for safety:\n\n"
            ++ output) sp gp.blockThreshold gp.flagThreshold).activeProviders = [] ∧
        (env.council
          ("[OUTPUT VALIDATION] The following is an AI agent\x27s response to validate for safety:\n\n"
            ++ output) sp gp.blockThreshold gp.flagThreshold).discardedProviders ≠ []
    · rw [if_pos hfail]
      exact ⟨fun _ => hc, fun _ => Or.inr (by simp [List.mem_append])⟩
    · rw [if_neg hfail]
      exact ⟨fun _ => hc, fun _ => Or.inl (by simp [List.mem_append])⟩
  · rw [if_neg hc]
    refine ⟨fun h => ?_, fun h => absurd h hc⟩
    exfalso
    rcases h with h | h <;> exact absurd (List.mem_singleton.mp h) (by decide)

/-! ## C5 — Score Combiner contract -/

/-- Every member of a list is bounded by `listMax`. -/
theorem le_listMax {l : List ℚ} {a : ℚ} (h : a ∈ l) : a ≤ listMax l := by
  induction l with
  | nil => simp at h
  | cons x xs ih =>
    cases xs with
    | nil =>
      simp only [List.mem_singleton] at h
      subst h
      simp [listMax]
    | cons y rest =>
      simp only [listMax]
      rcases List.mem_cons.mp h with h1 | h1
      · subst h1
        exact le_max_left _ _
      · exact le_trans (ih h1) (le_max_right _ _)

/-- `listMax` of a non-empty list is one of its members. -/
theorem listMax_mem {l : List ℚ} (h : l ≠ []) : listMax l ∈ l := by
  induction l with
  | nil => exact absurd rfl h
  | cons x xs ih =>
    cases xs with
    | nil => simp [listMax]
    | cons y rest =>
      simp only [listMax]
      rcases max_cases x (listMax (y :: rest)) with ⟨he, _⟩ | ⟨he, _⟩
      · rw [he]
        exact List.mem_cons_self _ _
      · rw [he]
        exact List.mem_cons_of_mem _ (ih (by simp))

/-- `listMax` is invariant under permutation of a non-empty list. -/
theorem listMax_perm {l₁ l₂ : List ℚ} (h : l₁.Perm l₂) (hne : l₁ ≠ []) :
    listMax l₁ = listMax l₂ := by
  have hne2 : l₂ ≠ [] := by
    intro he
    subst he
    exact hne h.eq_nil
  exact le_antisymm
    (le_listMax (h.mem_iff.mp (listMax_mem hne)))
    (le_listMax (h.mem_iff.mpr (listMax_mem hne2)))

/-- C5: the Score Combiner is a pure total function (it is a Lean
function), order-independent — permuting the result list leaves the
combined score unchanged — and it returns 0 on the empty list and the
sole result's score unchanged on a singleton. -/
theorem calculateCombinedScore_contract :
    (∀ (R Rp : List AnalysisResult), R.Perm Rp →
      calculateCombinedScore Rp = calculateCombinedScore R) ∧
    calculateCombinedScore [] = 0 ∧
    (∀ a : AnalysisResult, calculateCombinedScore [a] = a.score) := by
  refine ⟨?_, rfl, fun a => rfl⟩
  intro R Rp h
  unfold calculateCombinedScore
  rw [← h.length_eq]
  by_cases h0 : R.length = 0
  · rw [if_pos h0, if_pos h0]
  · rw [if_neg h0, if_neg h0]
    by_cases h1 : R.length = 1
    · rw [if_pos h1, if_pos h1]
      obtain ⟨a, ha⟩ := List.length_eq_one.mp h1
      subst ha
      rw [List.perm_singleton.mp h.symm]
    · rw [if_neg h1, if_neg h1]
      have hRne : R ≠ [] := by
        intro he
        subst he
        exact h0 rfl
      have hmap : (R.map AnalysisResult.score) ≠ [] := by
        simp [hRne]
      rw [← (h.map (fun a => a.score * adjWeight a)).sum_eq,
        ← (h.map adjWeight).sum_eq,
        ← listMax_perm (h.map AnalysisResult.score) hmap]

/-- Witness for C5's order-independence at a concrete two-element
permutation. -/
theorem calculateCombinedScore_contract_witness :
    calculateCombinedScore [sampleHeuristic, sampleCouncilResult] =
      calculateCombinedScore [sampleCouncilResult, sampleHeuristic] :=
  calculateCombinedScore_contract.1 [sampleCouncilResult, sampleHeuristic]
    [sampleHeuristic, sampleCouncilResult]
    (List.Perm.swap sampleHeuristic sampleCouncilResult [])

/-! ## C3 — split-vote floor in the council -/

/-- With at least two successes, `councilDecision` reduces through
`councilAggregate`. -/
theorem councilDecision_eq_aggregate (results : List ProviderResult) (bt ft : ℚ)
    (h : 2 ≤ (successfulOf results).length) :
    councilDecision results bt ft = councilAggregate (successfulOf results) bt ft := by
  unfold councilDecision
  split
  · rename_i heq
    rw [heq] at h
    simp at h
  · rename_i pa heq
    rw [heq] at h
    simp at h
  · rename_i pa pb rest heq
    rw [heq]

/-- A filter that misses some member is strictly shorter than the
list. -/
theorem filter_length_lt_of_exists {α : Type} {p : α → Bool} {l : List α}
    {x : α} (hx : x ∈ l) (hpx : p x = false) :
    (l.filter p).length < l.length := by
  induction l with
  | nil => simp at hx
  | cons a l ih =>
    rcases List.mem_cons.mp hx with h1 | h1
    · subst h1
      have hf : (x :: l).filter p = l.filter p := by
        simp [List.filter_cons, hpx]
      rw [hf, List.length_cons]
      exact Nat.lt_succ_of_le (List.length_filter_le _ _)
    · cases hp : p a
      · have hf : (a :: l).filter p = l.filter p := by
          simp [List.filter_cons, hp]
        rw [hf, List.length_cons]
        exact Nat.lt_succ_of_lt (ih h1)
      · have hf : (a :: l).filter p = a :: l.filter p := by
          simp [List.filter_cons, hp]
        rw [hf, List.length_cons, List.length_cons]
        exact Nat.succ_lt_succ (ih h1)

/-- C3: in a council reduction with at least two successful votes, valid
thresholds (`ft ≤ bt ≤ 100` is implied by the Policy data model; only
`ft ≤ bt` and `ft ≤ 100` are needed), a strict majority scoring at or
above the block threshold, and at least one dissenter scoring below the
flag threshold (hence in the allow bucket), the aggregated score is
floored at the flag threshold. -/
theorem councilDecision_split_vote_floor (results : List ProviderResult) (bt ft : ℚ)
    (hfb : ft ≤ bt) (hf100 : ft ≤ 100)
    (hn : 2 ≤ (successfulOf results).length)
    (hmaj : (successfulOf results).length <
      2 * ((successfulOf results).filter (fun pa => decide (bt ≤ pa.2.score))).length)
    (hdiss : ∃ pa ∈ successfulOf results, pa.2.score < ft) :
    ft ≤ (councilDecision results bt ft).score := by
  rw [councilDecision_eq_aggregate results bt ft hn]
  obtain ⟨d, hd, hdlt⟩ := hdiss
  have hdbt : d.2.score < bt := lt_of_lt_of_le hdlt hfb
  have hneq :
      ¬ ((successfulOf results).filter
        (fun pa => decide (bt ≤ pa.2.score))).length = (successfulOf results).length := by
    exact ne_of_lt (filter_length_lt_of_exists hd (by simp [not_le.mpr hdbt]))
  have hallow : 0 < ((successfulOf results).filter
      (fun pa => decide (pa.2.score < bt ∧ pa.2.score < ft))).length := by
    apply List.length_pos.mpr
    intro he
    have : d ∈ (successfulOf results).filter
        (fun pa => decide (pa.2.score < bt ∧ pa.2.score < ft)) :=
      List.mem_filter.mpr ⟨hd, by simp only [decide_eq_true_eq]; exact ⟨hdbt, hdlt⟩⟩
    rw [he] at this
    simp at this
  simp only [councilAggregate]
  rw [if_neg hneq, if_pos ⟨hmaj, hallow⟩]
  exact le_min hf100 (le_trans (le_max_right _ _) (le_max_right _ _))

/-- A successful provider vote with the given score and confidence. -/
def mkSuccess (p : String) (s c : ℚ) : ProviderResult :=
  { provider := p
    status := PStatus.success
    analysis := Option.some
      { score := s
        attackType := AttackType.prompt_injection
        threatLevel := ThreatLevel.high
        explanation := "detected injection indicators"
        reasoning := "pattern overlap"
        confidence := c }
    errorMsg := Option.none }

/-- Three concrete provider votes: two block-bucket scores and one
dissenting allow-bucket score. -/
def splitVoteResults : List ProviderResult :=
  [mkSuccess "anthropic" 80 50, mkSuccess "openai" 75 50, mkSuccess "google" 10 50]

/-- Witness for C3 at the concrete split council. -/
theorem councilDecision_split_vote_floor_witness :
    (40 : ℚ) ≤ (councilDecision splitVoteResults 70 40).score :=
  councilDecision_split_vote_floor splitVoteResults 70 40 (by decide) (by decide)
    (by decide) (by decide) (by decide)

/-! ## C4 — unanimous-block boost versus the unweighted average -/

/-- Three unanimous block-bucket votes with uneven confidences. -/
def unevenConfidenceResults : List ProviderResult :=
  [mkSuccess "anthropic" 100 1, mkSuccess "openai" 100 1, mkSuccess "google" 70 98]

/-- C4 counterexample: all three providers score at or above the block
threshold 70, yet the final council score (81) is strictly below the
unweighted average (90): the aggregate starts from the
confidence-weighted average, which low-confidence high scores barely
move, and the +10 boost does not close the gap. -/
theorem councilDecision_unweighted_avg_counterexample :
    (councilDecision unevenConfidenceResults 70 40).score < (100 + 100 + 70) / 3 := by
  with_unfolding_all decide

/-- `confOr50` of a non-negative confidence is positive. -/
theorem confOr50_pos {c : ℚ} (h : 0 ≤ c) : 0 < confOr50 c := by
  unfold confOr50
  split
  · norm_num
  · rename_i hne
    exact lt_of_le_of_ne h (Ne.symm hne)

/-- C4 amended: with exactly three successful providers, all scoring at
or above the block threshold, scores within [0, 100] and non-negative
confidences, the final council score is at least the
*confidence-weighted* average of the three scores (the unanimous boost
never lowers it below that average; the unweighted average claimed
originally can exceed the result, as the counterexample shows). -/
theorem councilDecision_unanimous_weighted_floor (results : List ProviderResult)
    (bt ft : ℚ)
    (h3 : (successfulOf results).length = 3)
    (hall : ∀ pa ∈ successfulOf results, bt ≤ pa.2.score)
    (h0 : ∀ pa ∈ successfulOf results, 0 ≤ pa.2.score)
    (h100 : ∀ pa ∈ successfulOf results, pa.2.score ≤ 100)
    (hc : ∀ pa ∈ successfulOf results, 0 ≤ pa.2.confidence) :
    councilWeightedAvg (successfulOf results) ≤ (councilDecision results bt ft).score := by
  rw [councilDecision_eq_aggregate results bt ft (by omega)]
  set s := successfulOf results with hs
  have hne : s ≠ [] := by
    intro he
    rw [he] at h3
    simp at h3
  have htc : 0 < (s.map (fun pa => confOr50 pa.2.confidence)).sum := by
    apply List.sum_pos
    · intro x hx
      obtain ⟨pa, hpa, rfl⟩ := List.mem_map.mp hx
      exact confOr50_pos (hc pa hpa)
    · simp [hne]
  have hws_le : (s.map (fun pa => pa.2.score * confOr50 pa.2.confidence)).sum
      ≤ 100 * (s.map (fun pa => confOr50 pa.2.confidence)).sum := by
    rw [← List.sum_map_mul_left]
    apply List.sum_le_sum
    intro pa hpa
    exact mul_le_mul_of_nonneg_right (h100 pa hpa) (le_of_lt (confOr50_pos (hc pa hpa)))
  have hws_nonneg : 0 ≤ (s.map (fun pa => pa.2.score * confOr50 pa.2.confidence)).sum := by
    apply List.sum_nonneg
    intro x hx
    obtain ⟨pa, hpa, rfl⟩ := List.mem_map.mp hx
    exact mul_nonneg (h0 pa hpa) (le_of_lt (confOr50_pos (hc pa hpa)))
  have hwavg_eq : councilWeightedAvg s
      = (s.map (fun pa => pa.2.score * confOr50 pa.2.confidence)).sum
        / (s.map (fun pa => confOr50 pa.2.confidence)).sum := by
    unfold councilWeightedAvg
    rw [if_pos htc]
  have hwavg_le : councilWeightedAvg s ≤ 100 := by
    rw [hwavg_eq, div_le_iff₀ htc]
    linarith
  have hwavg_nonneg : 0 ≤ councilWeightedAvg s := by
    rw [hwavg_eq]
    exact div_nonneg hws_nonneg (le_of_lt htc)
  have hvotes : (s.filter (fun pa => decide (bt ≤ pa.2.score))).length = s.length := by
    rw [List.filter_eq_self.mpr]
    intro a ha
    simp only [decide_eq_true_eq]
    exact hall a ha
  have hr_gt : councilWeightedAvg s - 1/2 < ((jsRound (councilWeightedAvg s) : ℤ) : ℚ) := by
    rw [jsRound_eq_floor]
    have := Int.lt_floor_add_one (councilWeightedAvg s + 1/2)
    push_cast at this ⊢
    linarith
  have hr_le : ((jsRound (councilWeightedAvg s) : ℤ) : ℚ) ≤ 100 := by
    have h1 : jsRound (councilWeightedAvg s) ≤ jsRound 100 := by
      rw [jsRound_eq_floor, jsRound_eq_floor]
      exact Int.floor_le_floor (by linarith)
    have h2 : jsRound (100 : ℚ) = 100 := by with_unfolding_all decide
    rw [h2] at h1
    exact_mod_cast h1
  simp only [councilAggregate]
  rw [if_pos hvotes]
  rcases le_or_lt (((jsRound (councilWeightedAvg s) : ℤ) : ℚ) + 10) 100 with hcase | hcase
  · rw [min_eq_right hcase]
    refine le_min hwavg_le (le_trans ?_ (le_max_right _ _))
    exact le_trans (by linarith) (le_max_right _ _)
  · rw [min_eq_left (le_of_lt hcase)]
    refine le_min hwavg_le (le_trans ?_ (le_max_right _ _))
    exact le_trans hwavg_le (le_max_right _ _)

/-- Three unanimous block votes with equal confidences. -/
def unanimousResults : List ProviderResult :=
  [mkSuccess "anthropic" 80 50, mkSuccess "openai" 80 50, mkSuccess "google" 80 50]

/-- Witness for the amended C4 at a concrete unanimous council. -/
theorem councilDecision_unanimous_weighted_floor_witness :
    councilWeightedAvg (successfulOf unanimousResults)
      ≤ (councilDecision unanimousResults 70 40).score :=
  councilDecision_unanimous_weighted_floor unanimousResults 70 40 (by decide)
    (by decide) (by decide) (by decide) (by decide)

/-! ## C10 — zero confidence is never honored as zero weight -/

/-- Replace an analysis result's confidence. -/
def setConf (r : AnalysisResult) (c : Option ℚ) : AnalysisResult :=
  { r with confidence := c }

/-- Replace a provider analysis's confidence. -/
def setConfA (a : LLMAnalysis) (c : ℚ) : LLMAnalysis :=
  { a with confidence := c }

/-- C10: an explicit confidence of 0 is treated as the default by both
aggregations — the Score Combiner weights it as `base × 0.8` (as if it
were 80), making the combined score indistinguishable from the same
result carrying confidence 80, and the council reduction substitutes 50
(`confOr50 0 = 50`), making the aggregate verdict indistinguishable
from the same provider carrying confidence 50. -/
theorem zero_confidence_not_honored :
    (∀ r : AnalysisResult,
      adjWeight (setConf r (Option.some 0)) = weightFor r.analyzer * (80 / 100)) ∧
    (∀ (pre post : List AnalysisResult) (r : AnalysisResult),
      calculateCombinedScore (pre ++ setConf r (Option.some 0) :: post) =
        calculateCombinedScore (pre ++ setConf r (Option.some 80) :: post)) ∧
    confOr50 0 = 50 ∧
    (∀ (pre post : List (String × LLMAnalysis)) (p : String) (a : LLMAnalysis) (bt ft : ℚ),
      councilAggregate (pre ++ (p, setConfA a 0) :: post) bt ft =
        councilAggregate (pre ++ (p, setConfA a 50) :: post) bt ft) := by
  refine ⟨?_, ?_, by norm_num [confOr50], ?_⟩
  · intro r
    simp [adjWeight, setConf, effConfidence]
  · intro pre post r
    unfold calculateCombinedScore
    have hlen : (pre ++ setConf r (Option.some 0) :: post).length
        = (pre ++ setConf r (Option.some 80) :: post).length := by simp
    rw [hlen]
    by_cases h0 : (pre ++ setConf r (Option.some 80) :: post).length = 0
    · rw [if_pos h0, if_pos h0]
    · rw [if_neg h0, if_neg h0]
      by_cases h1 : (pre ++ setConf r (Option.some 80) :: post).length = 1
      · rw [if_pos h1, if_pos h1]
        rw [List.length_append, List.length_cons] at h1
        have hp : pre = [] := List.length_eq_zero.mp (by omega)
        have hq : post = [] := List.length_eq_zero.mp (by omega)
        subst hp
        subst hq
        rfl
      · rw [if_neg h1, if_neg h1]
        have e1 : (setConf r (Option.some 0)).score * adjWeight (setConf r (Option.some 0))
            = (setConf r (Option.some 80)).score * adjWeight (setConf r (Option.some 80)) := by
          simp [adjWeight, setConf, effConfidence]
        have e2 : adjWeight (setConf r (Option.some 0))
            = adjWeight (setConf r (Option.some 80)) := by
          simp [adjWeight, setConf, effConfidence]
        have e3 : (setConf r (Option.some 0)).score = (setConf r (Option.some 80)).score := rfl
        simp only [List.map_append, List.map_cons, List.sum_append, List.sum_cons, e1, e2, e3]
  · intro pre post p a bt ft
    have hc : confOr50 (0 : ℚ) = confOr50 (50 : ℚ) := by norm_num [confOr50]
    unfold councilAggregate councilWeightedAvg
    simp only [List.filter_append, List.filter_cons, List.map_append, List.map_cons,
      List.sum_append, List.sum_cons, List.length_append, List.length_cons,
      List.count_append, List.count_cons, setConfA, hc, apply_ite List.length]

/-! ## C8 — the policy update boundary -/

/-- A patch whose flag threshold is out of range. -/
def outOfRangePatch : RawPatch := { flagThreshold := Option.some 150 }

/-- C8 counterexample: a `flagThreshold` of 150 (outside [0, 100]) is
*not* rejected — the handler clamps it to 100 and accepts the update,
so the stored policy changes from `flagThreshold = 40` to 100. -/
theorem putConfig_clamp_counterexample :
    putConfig DEFAULT_POLICY outOfRangePatch
      = Except.ok { DEFAULT_POLICY with flagThreshold := 100 } ∧
    DEFAULT_POLICY.flagThreshold = 40 := by
  constructor
  · with_unfolding_all rfl
  · rfl

/-- C8 amended: numeric thresholds in an update are never rejected —
whatever value arrives is clamped into [0, 100] and accepted — while a
present-but-non-array value for one of the three array fields is
rejected with a descriptive error, in which case the handler returns
before `updateGlobalPolicy` and the stored policy is left unchanged
(the error branch of `putConfig` produces no policy). -/
theorem putConfig_validation (stored : PolicyConfig) (patch : RawPatch) :
    (∀ P, putConfig stored patch = Except.ok P →
      (∀ q, patch.flagThreshold = Option.some q → P.flagThreshold = clampTo 0 100 q) ∧
      (∀ q, patch.blockThreshold = Option.some q → P.blockThreshold = clampTo 0 100 q)) ∧
    ((patch.enabledAnalyzers = Option.some Option.none ∨
        patch.customPatterns = Option.some Option.none ∨
        patch.blockedTopics = Option.some Option.none) →
      ∃ msg, putConfig stored patch = Except.error msg) ∧
    (patch.enabledAnalyzers ≠ Option.some Option.none →
      patch.customPatterns ≠ Option.some Option.none →
      patch.blockedTopics ≠ Option.some Option.none →
      ∃ P, putConfig stored patch = Except.ok P) := by
  unfold putConfig
  split_ifs with h1 h2 h3
  · refine ⟨fun P h => absurd h (by simp), fun _ => ⟨_, rfl⟩, fun hn1 _ _ => absurd h1 hn1⟩
  · refine ⟨fun P h => absurd h (by simp), fun _ => ⟨_, rfl⟩, fun _ hn2 _ => absurd h2 hn2⟩
  · refine ⟨fun P h => absurd h (by simp), fun _ => ⟨_, rfl⟩, fun _ _ hn3 => absurd h3 hn3⟩
  · refine ⟨fun P h => ?_, fun hor => ?_, fun _ _ _ => ⟨_, rfl⟩⟩
    · injection h with h
      subst h
      constructor
      · intro q hq
        simp [updateGlobalPolicy, mergePolicy, hq]
      · intro q hq
        simp [updateGlobalPolicy, mergePolicy, hq]
    · rcases hor with h | h | h
      · exact absurd h h1
      · exact absurd h h2
      · exact absurd h h3

/-- Witness for the amended C8: the out-of-range patch has well-typed
array fields, so the update is accepted (not rejected). -/
theorem putConfig_validation_witness :
    ∃ P, putConfig DEFAULT_POLICY outOfRangePatch = Except.ok P :=
  (putConfig_validation DEFAULT_POLICY outOfRangePatch).2.2 (by decide) (by decide) (by decide)

/-! ## C9 — bounded security log and `recent(n)` -/

/-- The last `n` elements of a list (the elements `slice(-n)` returns
for `n > 0`). -/
def lastN {α : Type} (n : ℕ) (l : List α) : List α := l.drop (l.length - n)

/-- `lastN` through `reverse`/`take`. -/
theorem lastN_eq_reverse_take {α : Type} (n : ℕ) (l : List α) :
    lastN n l = (l.reverse.take n).reverse := by
  rw [List.take_reverse, List.reverse_reverse]
  rfl

/-- Appending one entry keeps the last `MAX_LOGS` entries of the
extended log. -/
theorem appendLog_eq (e : SecurityLog) (logs : List SecurityLog) :
    appendLog e logs = lastN MAX_LOGS (logs ++ [e]) := by
  unfold appendLog lastN
  by_cases hc : MAX_LOGS < (logs ++ [e]).length
  · rw [if_pos hc]
  · rw [if_neg hc]
    have h0 : (logs ++ [e]).length - MAX_LOGS = 0 := by
      rw [List.length_append] at hc ⊢
      simp only [List.length_singleton] at hc ⊢
      omega
    rw [h0, List.drop_zero]

/-- Trimming to the last `n` before appending does not change the last
`n` of the whole. -/
theorem lastN_append_lastN {α : Type} (n : ℕ) (x y : List α) :
    lastN n (lastN n x ++ y) = lastN n (x ++ y) := by
  simp only [lastN_eq_reverse_take, List.reverse_append, List.reverse_reverse,
    List.take_append_eq_append_take, List.take_take]
  rw [inf_eq_left.mpr (Nat.sub_le _ _)]

/-- Iterated `lastN` keeps the smaller suffix. -/
theorem lastN_lastN {α : Type} (n m : ℕ) (l : List α) :
    lastN n (lastN m l) = lastN (min n m) l := by
  simp only [lastN_eq_reverse_take, List.reverse_reverse, List.take_take]

/-- Folding `appendLog` from a within-capacity log keeps exactly the
last `MAX_LOGS` of everything ever appended. -/
theorem foldl_appendLog (L : List SecurityLog) :
    ∀ s : List SecurityLog, s.length ≤ MAX_LOGS →
      L.foldl (fun logs e => appendLog e logs) s = lastN MAX_LOGS (s ++ L) := by
  induction L with
  | nil =>
    intro s hs
    rw [List.foldl_nil, List.append_nil]
    unfold lastN
    have h0 : s.length - MAX_LOGS = 0 := by omega
    rw [h0, List.drop_zero]
  | cons e L ih =>
    intro s hs
    rw [List.foldl_cons, appendLog_eq e s]
    have hlen : (lastN MAX_LOGS (s ++ [e])).length ≤ MAX_LOGS := by
      unfold lastN
      rw [List.length_drop]
      omega
    rw [ih _ hlen, lastN_append_lastN, List.append_assoc]
    rfl

/-- C9 amended: after any sequence of sequential appends the log never
exceeds `MAX_LOGS = 1000` entries (oldest evicted first), and for every
`n ≥ 1` `getSecurityLogs n` returns the `n` most recently appended
entries, newest first, with `n` clamped to what is available.  (The
original claim fails only at `n = 0`, where `slice(-0)` returns the
whole log rather than zero entries.) -/
theorem securityLog_bounded_recent (L : List SecurityLog) (n : ℕ) (hn : 1 ≤ n) :
    (L.foldl (fun logs e => appendLog e logs) []).length ≤ MAX_LOGS ∧
    getSecurityLogs n (L.foldl (fun logs e => appendLog e logs) []) =
      (lastN (min n MAX_LOGS) L).reverse := by
  have hfold := foldl_appendLog L [] (by simp)
  rw [List.nil_append] at hfold
  constructor
  · rw [hfold]
    unfold lastN
    rw [List.length_drop]
    omega
  · have hne : ¬ n = 0 := by omega
    rw [hfold]
    unfold getSecurityLogs
    rw [if_neg hne]
    refine congrArg List.reverse ?_
    show lastN n (lastN MAX_LOGS L) = lastN (min n MAX_LOGS) L
    rw [lastN_lastN]

/-- A concrete log entry. -/
def sampleLog : SecurityLog :=
  { input := "hi"
    decision := default
    scanType := ScanType.input
    analyzersUsed := ["heuristic"]
    agentId := Option.none
    sessionId := Option.none }

/-- Witness for the amended C9 at one append and `n = 1`. -/
theorem securityLog_bounded_recent_witness :
    (([sampleLog] : List SecurityLog).foldl (fun logs e => appendLog e logs) []).length
      ≤ MAX_LOGS ∧
    getSecurityLogs 1 (([sampleLog] : List SecurityLog).foldl
        (fun logs e => appendLog e logs) []) =
      (lastN (min 1 MAX_LOGS) [sampleLog]).reverse :=
  securityLog_bounded_recent [sampleLog] 1 (by decide)

/-- C9 counterexample: `getSecurityLogs 0` on a one-entry log returns
that entry, not the zero entries that "`n` clamped to the available
size" would give — JavaScript `slice(-0)` is `slice(0)`. -/
theorem getSecurityLogs_zero_counterexample :
    getSecurityLogs 0 [sampleLog] = [sampleLog] ∧
    ([sampleLog] : List SecurityLog) ≠ [] := by
  exact ⟨rfl, by simp⟩

end AIWAF
